import Mathlib

/-
  Verification of the agentic tool-orchestration loop of the
  build-your-own-coding-agent repository.

  The embedding follows the TypeScript sources:
  - src/7-extended-thinking/agent.ts  (Agent.run, Agent.handleStreamEvent,
    Agent.runInference) — the streaming dispatch loop; its per-block dispatch
    convention (try/catch with a string `toolErrorMsg` sentinel,
    `content: toolErrorMsg || toolResult`, `is_error: !!toolErrorMsg`) is
    shared verbatim by src/chapter3/tools/list_files.ts (class Agent).
  - src/chapter4/agent.ts (Agent.run) — the non-streaming dispatch loop; its
    dispatch convention uses a Result tuple `[toolError, toolResult]` with an
    Error-object sentinel (`content: toolError ? toolError.message : toolResult`,
    `is_error: !!toolError`).
  - src/chapter3/tools/list_files.ts (ListFiles) — the list_files executor.

  The remote model transport (client.messages.create / client.messages.stream)
  is external; it is modelled as a script: the list of successive outcomes the
  transport returns, each either a thrown error (Except.error, carrying the
  displayed message) or an assistant message (its content-block list).
  Likewise user input (rl.question) is modelled as the list of its successive
  outcomes (none = EOF/rejection, some s = a line).
-/

namespace Agent

/-- Stand-in for the opaque JSON input payload of a tool_use block: the loop
passes `block.input` through to the executor untouched, so its internal
structure never matters to the dispatch logic. -/
abbrev ToolInput := String

/-- Content block of an assistant message (Anthropic content block subset the
loops inspect: text, thinking, tool_use). -/
inductive ContentBlock where
  | text (s : String)
  | thinking (s : String)
  | toolUse (id : String) (name : String) (input : ToolInput)
  deriving DecidableEq, Repr

/-- Whether a content block is a tool_use request
(`block.type === "tool_use"`). -/
def ContentBlock.isToolUse : ContentBlock → Bool
  | .toolUse _ _ _ => true
  | _ => false

/-- Whether an assistant message contains at least one tool_use block: the
value the loop's `hasToolUse` flag holds after the for-loop over
`message.content`. -/
def hasAnyToolUse (m : List ContentBlock) : Bool :=
  m.any ContentBlock.isToolUse

/-- A tool_result block as pushed onto `toolsResults`
(Anthropic.ToolResultBlockParam): in the TypeScript sources `content` may be
`undefined`, hence `Option String`. -/
structure ToolResultBlock where
  tool_use_id : String
  content : Option String
  is_error : Bool
  deriving DecidableEq, Repr

/-- A tool definition: `Param.name` together with the `Execute` function.
`exec input = Except.ok r` models a resolved promise with value `r`;
`exec input = Except.error m` models a rejection whose stringified message
(`err instanceof Error ? err.message : String(err)`) is `m` — for the
chapter4 variant it models the `[Error(m), undefined]` Result tuple. -/
structure ToolDef where
  name : String
  exec : ToolInput → Except String String

/-- First tool whose `Param.name` equals the requested name: the
`for (const tool of this.tools) if (tool.Param.name === toolToUse)` scan. -/
def findTool (tools : List ToolDef) (name : String) : Option ToolDef :=
  tools.find? (fun t => t.name == name)

/-- Dispatch of one tool_use block in src/7-extended-thinking/agent.ts lines
90-138 (same code in src/chapter3/tools/list_files.ts): the result block plus
a flag recording whether an executor was invoked. On a caught rejection with
message `m`, `content: toolErrorMsg || toolResult` is `undefined` when `m` is
empty (JavaScript `||` treats the empty string as falsy and `toolResult` was
never assigned) and `is_error: !!toolErrorMsg` is the truthiness of the string
`m`, hence false exactly when `m` is empty. -/
def dispatchToolUse (tools : List ToolDef) (id name : String) (input : ToolInput) :
    ToolResultBlock × Bool :=
  match findTool tools name with
  | some t =>
    match t.exec input with
    | .ok r => (⟨id, some r, false⟩, true)
    | .error m => (⟨id, if m = "" then none else some m, !(m == "")⟩, true)
  | none => (⟨id, some ("Tool not found: " ++ name), true⟩, false)

/-- Dispatch of one tool_use block in src/chapter4/agent.ts lines 64-95: the
`[toolError, toolResult]` Result tuple convention. Here the sentinel is the
Error object itself, so `is_error: !!toolError` is true for every present
error, and `content: toolError ? toolError.message : toolResult` is the
error's message even when that message is empty. -/
def dispatchToolUseCh4 (tools : List ToolDef) (id name : String) (input : ToolInput) :
    ToolResultBlock × Bool :=
  match findTool tools name with
  | some t =>
    match t.exec input with
    | .ok r => (⟨id, some r, false⟩, true)
    | .error m => (⟨id, some m, true⟩, true)
  | none => (⟨id, some ("Tool not found: " ++ name), true⟩, false)

/-- Observable events of one run of the chat loop, in order. -/
inductive Event where
  | readInput (s : Option String)
  | skipEmpty
  | appendUserText (s : String)
  | transportCall
  | appendAssistant (m : List ContentBlock)
  | execTool (name : String)
  | appendToolResults (rs : List ToolResultBlock)
  | errorShown (e : String)
  deriving DecidableEq, Repr

/-- Whether an event is a call to the Transport (`runInference`). -/
def Event.isCall : Event → Bool
  | .transportCall => true
  | _ => false

/-- Number of Transport calls in an event trace. -/
def countCalls (evs : List Event) : Nat :=
  evs.countP Event.isCall

/-- One entry of the `conversation` array: a plain-text user message
(`{ role: "user", content: userInput }`), an assistant message
(`{ role: "assistant", content: message.content }`), or the user-role
message carrying the collected tool results
(`{ role: "user", content: toolsResults }`). -/
inductive ChatMessage where
  | userText (s : String)
  | assistant (blocks : List ContentBlock)
  | toolResults (rs : List ToolResultBlock)
  deriving DecidableEq, Repr

/-- Result of interpreting the content blocks of one assistant response
(the for-loop over `message.content`): the final `hasToolUse` flag, the
`toolsResults` array in push order, and the executor invocations in
dispatch order. -/
structure InterpretOut where
  hasToolUse : Bool
  results : List ToolResultBlock
  events : List Event
  deriving DecidableEq, Repr

/-- Interpretation of one assistant response, src/7-extended-thinking/agent.ts
lines 89-140: text and thinking blocks are skipped (their display happened
during streaming), each tool_use block sets `hasToolUse` and pushes exactly
one tool_result. -/
def interpret (tools : List ToolDef) : List ContentBlock → InterpretOut
  | [] => ⟨false, [], []⟩
  | .toolUse id name input :: rest =>
    let d := dispatchToolUse tools id name input
    let o := interpret tools rest
    ⟨true, d.1 :: o.results, (if d.2 then [Event.execTool name] else []) ++ o.events⟩
  | .text _ :: rest => interpret tools rest
  | .thinking _ :: rest => interpret tools rest

/-- Outcome of one Transport call: either the thrown error's displayed message
or the assistant message's content blocks. -/
abbrev TransportOutcome := Except String (List ContentBlock)

/-- The scripted sequence of outcomes successive Transport calls return. -/
abbrev Script := List TransportOutcome

deriving instance DecidableEq for Except

/-- How the processing of one user turn ends: the inner while-loop broke with
no tool_use in the last response (`completed`), the catch block ran and the
error was displayed (`fatal`), or the model artifact of the script running
out mid-turn (`scriptEnded`). -/
inductive TurnEnd where
  | completed
  | fatal (e : String)
  | scriptEnded
  deriving DecidableEq, Repr

/-- State after (part of) a turn: the conversation array, the emitted events,
the unconsumed rest of the transport script, and how the turn ended. -/
structure LoopOut where
  conv : List ChatMessage
  events : List Event
  leftover : Script
  stop : TurnEnd
  deriving DecidableEq, Repr

/-- The inner `while (true)` of Agent.run (src/7-extended-thinking/agent.ts
lines 78-163, identically src/chapter4/agent.ts lines 57-106), entered with
the just-appended assistant message `m`: interpret the blocks; if no tool_use
was seen, break (turn completed, no further Transport call); otherwise push
the single user-role message with all tool results, make the continuation
Transport call, and on success push the new assistant message and loop. A
thrown Transport call is caught by the surrounding try: the error is
displayed and the turn ends fatally with no assistant message appended. -/
def innerLoop (tools : List ToolDef) : Script → List ContentBlock → List ChatMessage → LoopOut
  | [], m, conv =>
    let o := interpret tools m
    if o.hasToolUse then
      ⟨conv ++ [.toolResults o.results],
       o.events ++ [Event.appendToolResults o.results, Event.transportCall],
       [], .scriptEnded⟩
    else
      ⟨conv, o.events, [], .completed⟩
  | .error e :: rest, m, conv =>
    let o := interpret tools m
    if o.hasToolUse then
      ⟨conv ++ [.toolResults o.results],
       o.events ++ [Event.appendToolResults o.results, Event.transportCall,
                    Event.errorShown e],
       rest, .fatal e⟩
    else
      ⟨conv, o.events, .error e :: rest, .completed⟩
  | .ok m2 :: rest, m, conv =>
    let o := interpret tools m
    if o.hasToolUse then
      let r := innerLoop tools rest m2
        (conv ++ [.toolResults o.results, .assistant m2])
      ⟨r.conv,
       o.events ++ [Event.appendToolResults o.results, Event.transportCall,
                    Event.appendAssistant m2] ++ r.events,
       r.leftover, r.stop⟩
    else
      ⟨conv, o.events, .ok m2 :: rest, .completed⟩

/-- One user turn after the user message was pushed: the first Transport call
and, on success, the assistant push followed by the inner loop (the try block
of Agent.run). -/
def runTurn (tools : List ToolDef) (script : Script) (conv : List ChatMessage) : LoopOut :=
  match script with
  | [] => ⟨conv, [Event.transportCall], [], .scriptEnded⟩
  | .error e :: rest =>
    ⟨conv, [Event.transportCall, Event.errorShown e], rest, .fatal e⟩
  | .ok m :: rest =>
    let r := innerLoop tools rest m (conv ++ [.assistant m])
    ⟨r.conv, Event.transportCall :: Event.appendAssistant m :: r.events,
     r.leftover, r.stop⟩

/-- How a whole run of the chat loop ends: input ended (break on EOF or
input rejection — `run` returns normally), the catch block ran (`run`
returns after displaying the error), or the script artifact. -/
inductive RunEnd where
  | ended
  | fatal (e : String)
  | scriptEnded
  deriving DecidableEq, Repr

/-- Final state of a chat-loop run. -/
structure RunOut where
  conv : List ChatMessage
  events : List Event
  stop : RunEnd
  deriving DecidableEq, Repr

/-- The outer `while (true)` of Agent.run over successive user inputs:
a rejected/ended input breaks the loop; an empty line is skipped with no
state change (`continue`); a non-empty line is pushed as a user message and
the turn is run. A completed turn loops back to the prompt; a fatal turn
makes `run` return (the catch block ends the whole chat loop). -/
def runChat (tools : List ToolDef) :
    List (Option String) → Script → List ChatMessage → RunOut
  | [], _, conv => ⟨conv, [], .ended⟩
  | none :: _, _, conv => ⟨conv, [Event.readInput none], .ended⟩
  | some s :: rest, script, conv =>
    if s = "" then
      let r := runChat tools rest script conv
      ⟨r.conv, Event.readInput (some s) :: Event.skipEmpty :: r.events, r.stop⟩
    else
      let t := runTurn tools script (conv ++ [.userText s])
      match t.stop with
      | .completed =>
        let r := runChat tools rest t.leftover t.conv
        ⟨r.conv,
         Event.readInput (some s) :: Event.appendUserText s :: (t.events ++ r.events),
         r.stop⟩
      | .fatal e =>
        ⟨t.conv, Event.readInput (some s) :: Event.appendUserText s :: t.events,
         .fatal e⟩
      | .scriptEnded =>
        ⟨t.conv, Event.readInput (some s) :: Event.appendUserText s :: t.events,
         .scriptEnded⟩

/-- Block-type tag of a content_block_start event as inspected by
Agent.handleStreamEvent (`event.content_block.type`). -/
inductive HSBlockType where
  | thinking
  | toolUse
  | text
  | other
  deriving DecidableEq, Repr

/-- Delta payload of a content_block_delta event as inspected by
Agent.handleStreamEvent (`event.delta.type`). -/
inductive HSDelta where
  | thinkingDelta (s : String)
  | textDelta (s : String)
  | otherDelta
  deriving DecidableEq, Repr

/-- The stream events Agent.handleStreamEvent switches on; every event kind
outside the three handled cases falls through the switch. -/
inductive HSEvent where
  | contentBlockStart (t : HSBlockType)
  | contentBlockDelta (d : HSDelta)
  | contentBlockStop
  | otherEvent
  deriving DecidableEq, Repr

/-- Display-surface calls the stream handler can make (console_out). -/
inductive DisplayAction where
  | thinkingStart
  | thinkingStream (s : String)
  | claudeStream (s : String)
  | thinkingEnd
  deriving DecidableEq, Repr

/-- Agent.handleStreamEvent, src/7-extended-thinking/agent.ts lines 178-204:
given the current `isThinking` flag and one event, the new flag and the
display calls made. The switch has no error path: every event is handled (or
ignored) and the method always returns normally. -/
def handleStreamEvent (isThinking : Bool) : HSEvent → Bool × List DisplayAction
  | .contentBlockStart .thinking => (true, [DisplayAction.thinkingStart])
  | .contentBlockStart _ => (isThinking, [])
  | .contentBlockDelta (.thinkingDelta s) => (isThinking, [DisplayAction.thinkingStream s])
  | .contentBlockDelta (.textDelta s) => (isThinking, [DisplayAction.claudeStream s])
  | .contentBlockDelta .otherDelta => (isThinking, [])
  | .contentBlockStop =>
    if isThinking then (false, [DisplayAction.thinkingEnd]) else (isThinking, [])
  | .otherEvent => (isThinking, [])

/-- Folds handleStreamEvent over a whole event sequence, collecting the
display calls in order. -/
def runHandler : List HSEvent → Bool → Bool × List DisplayAction
  | [], th => (th, [])
  | e :: rest, th =>
    let r := handleStreamEvent th e
    let r2 := runHandler rest r.1
    (r2.1, r.2 ++ r2.2)

/-- Streaming wire events of one model response: block-start (carrying the
new block's fixed fields), block-delta (text, thinking, or partial-JSON
input fragments), block-stop, and the message completion signal. -/
inductive StreamEvent where
  | startText
  | startThinking
  | startToolUse (id : String) (name : String)
  | deltaText (s : String)
  | deltaThinking (s : String)
  | deltaInputJson (s : String)
  | blockStop
  | messageStop
  deriving DecidableEq, Repr

/-- The currently open in-progress block of the stream accumulator. -/
inductive OpenBlock where
  | text (buf : String)
  | thinking (buf : String)
  | toolUse (id : String) (name : String) (buf : String)
  deriving DecidableEq, Repr

/-- Accumulator state: finished blocks in order plus the open block, if any. -/
structure Accum where
  done : List ContentBlock
  cur : Option OpenBlock
  deriving DecidableEq, Repr

/-- Modelled from the spec: the stream-side reassembly of the discrete
content-block sequence is performed by the SDK's MessageStream (the
`stream.finalMessage()` the loop awaits in src/7-extended-thinking/agent.ts
lines 75 and 161) and is not part of the repository sources; this step
function follows spec section 4.4 — block-start opens a block (one at a time),
deltas of the matching kind append to its buffer, block-stop finalizes it,
message-stop requires no open block, and every ordering violation is an
error. -/
def accumStep (a : Accum) : StreamEvent → Except String Accum
  | .startText =>
    match a.cur with
    | some _ => .error "protocol violation: block-start while a block is open"
    | none => .ok ⟨a.done, some (OpenBlock.text "")⟩
  | .startThinking =>
    match a.cur with
    | some _ => .error "protocol violation: block-start while a block is open"
    | none => .ok ⟨a.done, some (OpenBlock.thinking "")⟩
  | .startToolUse id name =>
    match a.cur with
    | some _ => .error "protocol violation: block-start while a block is open"
    | none => .ok ⟨a.done, some (OpenBlock.toolUse id name "")⟩
  | .deltaText s =>
    match a.cur with
    | some (OpenBlock.text buf) => .ok ⟨a.done, some (OpenBlock.text (buf ++ s))⟩
    | _ => .error "protocol violation: delta without a matching open block"
  | .deltaThinking s =>
    match a.cur with
    | some (OpenBlock.thinking buf) => .ok ⟨a.done, some (OpenBlock.thinking (buf ++ s))⟩
    | _ => .error "protocol violation: delta without a matching open block"
  | .deltaInputJson s =>
    match a.cur with
    | some (OpenBlock.toolUse id name buf) =>
      .ok ⟨a.done, some (OpenBlock.toolUse id name (buf ++ s))⟩
    | _ => .error "protocol violation: delta without a matching open block"
  | .blockStop =>
    match a.cur with
    | none => .error "protocol violation: block-stop without an open block"
    | some (OpenBlock.text buf) => .ok ⟨a.done ++ [ContentBlock.text buf], none⟩
    | some (OpenBlock.thinking buf) => .ok ⟨a.done ++ [ContentBlock.thinking buf], none⟩
    | some (OpenBlock.toolUse id name buf) =>
      .ok ⟨a.done ++ [ContentBlock.toolUse id name buf], none⟩
  | .messageStop =>
    match a.cur with
    | some _ => .error "protocol violation: message-stop while a block is open"
    | none => .ok a

/-- Modelled from the spec (section 4.4): run the accumulator over the event
sequence; the reconstructed content-block sequence is the finished list at the
message-stop signal. -/
def accumulate : List StreamEvent → Accum → Except String (List ContentBlock)
  | [], _ => .error "stream ended without message-stop"
  | .messageStop :: _, a =>
    match a.cur with
    | some _ => .error "protocol violation: message-stop while a block is open"
    | none => .ok a.done
  | e :: rest, a =>
    match accumStep a e with
    | .error m => .error m
    | .ok a2 => accumulate rest a2

/-- The canonical wire form of one finished content block: start, one delta
carrying the whole payload, stop. -/
def serializeBlock : ContentBlock → List StreamEvent
  | .text s => [.startText, .deltaText s, .blockStop]
  | .thinking s => [.startThinking, .deltaThinking s, .blockStop]
  | .toolUse id name input =>
    [.startToolUse id name, .deltaInputJson input, .blockStop]

/-- The canonical event stream of a logical model response. -/
def serializeMessage (m : List ContentBlock) : List StreamEvent :=
  m.flatMap serializeBlock ++ [StreamEvent.messageStop]

/-- The list_files executor of src/chapter3/tools/list_files.ts lines 44-51,
with the filesystem's `readdir` outcome supplied as a parameter: on success it
joins the names with a newline, and on failure it catches the error internally
and returns the ordinary string built from its message — it returns normally
in both branches. -/
def ListFiles (readdirResult : Except String (List String)) : String :=
  match readdirResult with
  | .ok files => String.intercalate "\x0a" files
  | .error m => "Error listing files: " ++ m

/-- The chapter3 list_files tool definition (ListFilesToolDefinition): name
"list_files" with the ListFiles executor, which never rejects — its promise
always resolves, hence `Except.ok` unconditionally. -/
def listFilesTool (fs : ToolInput → Except String (List String)) : ToolDef :=
  ⟨"list_files", fun args => Except.ok (ListFiles (fs args))⟩

/-- The identifiers of the tool_use blocks of a message, in block order. -/
def toolUseIds (m : List ContentBlock) : List String :=
  m.filterMap (fun b => match b with
    | .toolUse id _ _ => some id
    | _ => none)

/-- The executor invocation a block gives rise to, if any: a tool_use block
whose name is registered. -/
def execEvent (tools : List ToolDef) : ContentBlock → Option Event
  | .toolUse _ name _ =>
    if (findTool tools name).isSome then some (Event.execTool name) else none
  | _ => none

theorem dispatch_tool_use_id (tools : List ToolDef) (id name : String) (input : ToolInput) :
    (dispatchToolUse tools id name input).1.tool_use_id = id := by
  rcases hft : findTool tools name with _ | t
  · simp [dispatchToolUse, hft]
  · rcases hex : t.exec input with m | r <;> simp [dispatchToolUse, hft, hex]

theorem dispatch_executed (tools : List ToolDef) (id name : String) (input : ToolInput) :
    (dispatchToolUse tools id name input).2 = (findTool tools name).isSome := by
  rcases hft : findTool tools name with _ | t
  · simp [dispatchToolUse, hft]
  · rcases hex : t.exec input with m | r <;> simp [dispatchToolUse, hft, hex]

theorem interpret_hasToolUse (tools : List ToolDef) (m : List ContentBlock) :
    (interpret tools m).hasToolUse = hasAnyToolUse m := by
  induction m with
  | nil => rfl
  | cons b rest ih =>
    cases b with
    | text s => simpa [interpret, hasAnyToolUse, ContentBlock.isToolUse] using ih
    | thinking s => simpa [interpret, hasAnyToolUse, ContentBlock.isToolUse] using ih
    | toolUse id name input => simp [interpret, hasAnyToolUse, ContentBlock.isToolUse]

theorem interpret_of_no_toolUse (tools : List ToolDef) (m : List ContentBlock)
    (h : hasAnyToolUse m = false) :
    interpret tools m = ⟨false, [], []⟩ := by
  induction m with
  | nil => rfl
  | cons b rest ih =>
    cases b with
    | text s =>
      simp [hasAnyToolUse, ContentBlock.isToolUse] at h
      simpa [interpret] using ih (by simpa [hasAnyToolUse] using h)
    | thinking s =>
      simp [hasAnyToolUse, ContentBlock.isToolUse] at h
      simpa [interpret] using ih (by simpa [hasAnyToolUse] using h)
    | toolUse id name input =>
      simp [hasAnyToolUse, ContentBlock.isToolUse] at h

theorem countCalls_append (a b : List Event) :
    countCalls (a ++ b) = countCalls a + countCalls b := by
  simp [countCalls, List.countP_append]

theorem countCalls_interpret (tools : List ToolDef) (m : List ContentBlock) :
    countCalls (interpret tools m).events = 0 := by
  induction m with
  | nil => rfl
  | cons b rest ih =>
    cases b with
    | text s => simpa [interpret] using ih
    | thinking s => simpa [interpret] using ih
    | toolUse id name input =>
      by_cases hd : (dispatchToolUse tools id name input).2 <;>
        simpa [interpret, hd, countCalls, List.countP_append, List.countP_cons,
          Event.isCall] using ih

theorem interpret_results_ids (tools : List ToolDef) (m : List ContentBlock) :
    (interpret tools m).results.map ToolResultBlock.tool_use_id = toolUseIds m := by
  induction m with
  | nil => rfl
  | cons b rest ih =>
    cases b with
    | text s => simpa [interpret, toolUseIds] using ih
    | thinking s => simpa [interpret, toolUseIds] using ih
    | toolUse id name input =>
      simp [interpret, toolUseIds, dispatch_tool_use_id]
      simpa [toolUseIds] using ih

theorem interpret_results_length (tools : List ToolDef) (m : List ContentBlock) :
    (interpret tools m).results.length = m.countP ContentBlock.isToolUse := by
  induction m with
  | nil => rfl
  | cons b rest ih =>
    cases b with
    | text s => simpa [interpret, List.countP_cons, ContentBlock.isToolUse] using ih
    | thinking s => simpa [interpret, List.countP_cons, ContentBlock.isToolUse] using ih
    | toolUse id name input =>
      simpa [interpret, List.countP_cons, ContentBlock.isToolUse] using ih

theorem interpret_events_shape (tools : List ToolDef) (m : List ContentBlock) :
    (interpret tools m).events = m.filterMap (execEvent tools) := by
  induction m with
  | nil => rfl
  | cons b rest ih =>
    cases b with
    | text s => simpa [interpret, execEvent] using ih
    | thinking s => simpa [interpret, execEvent] using ih
    | toolUse id name input =>
      by_cases hf : (findTool tools name).isSome <;>
        simp [interpret, execEvent, hf, dispatch_executed, List.filterMap_cons, ih]

theorem innerLoop_no_toolUse (tools : List ToolDef) (script : Script)
    (m : List ContentBlock) (conv : List ChatMessage)
    (h : hasAnyToolUse m = false) :
    innerLoop tools script m conv = ⟨conv, [], script, .completed⟩ := by
  have h2 := interpret_of_no_toolUse tools m h
  rcases script with _ | ⟨e | m2, rest⟩ <;> simp [innerLoop, h2]

theorem innerLoop_toolUse_ok (tools : List ToolDef) (rest : Script)
    (m2 m : List ContentBlock) (conv : List ChatMessage)
    (h : hasAnyToolUse m = true) :
    innerLoop tools (Except.ok m2 :: rest) m conv =
      ⟨(innerLoop tools rest m2
          (conv ++ [.toolResults (interpret tools m).results, .assistant m2])).conv,
       (interpret tools m).events
         ++ [Event.appendToolResults (interpret tools m).results, Event.transportCall,
             Event.appendAssistant m2]
         ++ (innerLoop tools rest m2
              (conv ++ [.toolResults (interpret tools m).results, .assistant m2])).events,
       (innerLoop tools rest m2
          (conv ++ [.toolResults (interpret tools m).results, .assistant m2])).leftover,
       (innerLoop tools rest m2
          (conv ++ [.toolResults (interpret tools m).results, .assistant m2])).stop⟩ := by
  have h2 : (interpret tools m).hasToolUse = true := by
    rw [interpret_hasToolUse]; exact h
  simp [innerLoop, h2]

theorem innerLoop_toolUse_error (tools : List ToolDef) (rest : Script)
    (e : String) (m : List ContentBlock) (conv : List ChatMessage)
    (h : hasAnyToolUse m = true) :
    innerLoop tools (Except.error e :: rest) m conv =
      ⟨conv ++ [.toolResults (interpret tools m).results],
       (interpret tools m).events
         ++ [Event.appendToolResults (interpret tools m).results, Event.transportCall,
             Event.errorShown e],
       rest, .fatal e⟩ := by
  have h2 : (interpret tools m).hasToolUse = true := by
    rw [interpret_hasToolUse]; exact h
  simp [innerLoop, h2]

theorem innerLoop_toolUse_nil (tools : List ToolDef)
    (m : List ContentBlock) (conv : List ChatMessage)
    (h : hasAnyToolUse m = true) :
    innerLoop tools [] m conv =
      ⟨conv ++ [.toolResults (interpret tools m).results],
       (interpret tools m).events
         ++ [Event.appendToolResults (interpret tools m).results, Event.transportCall],
       [], .scriptEnded⟩ := by
  have h2 : (interpret tools m).hasToolUse = true := by
    rw [interpret_hasToolUse]; exact h
  simp [innerLoop, h2]

theorem innerLoop_conv_extend (tools : List ToolDef) (script : Script)
    (m : List ContentBlock) (conv : List ChatMessage) :
    ∃ ext, (innerLoop tools script m conv).conv = conv ++ ext := by
  induction script generalizing m conv with
  | nil =>
    by_cases h : (interpret tools m).hasToolUse <;>
      simp [innerLoop, h]
  | cons hd rest ih =>
    rcases hd with e | m2
    · by_cases h : (interpret tools m).hasToolUse <;> simp [innerLoop, h]
    · by_cases h : (interpret tools m).hasToolUse
      · obtain ⟨ext, hext⟩ := ih m2
          (conv ++ [ChatMessage.toolResults (interpret tools m).results,
                    ChatMessage.assistant m2])
        refine ⟨[ChatMessage.toolResults (interpret tools m).results,
                 ChatMessage.assistant m2] ++ ext, ?_⟩
        simp [innerLoop, h, hext]
      · simp [innerLoop, h]

theorem runTurn_events_head (tools : List ToolDef) (script : Script)
    (conv : List ChatMessage) :
    ∃ tl, (runTurn tools script conv).events = Event.transportCall :: tl := by
  rcases script with _ | ⟨e | m, rest⟩
  · exact ⟨_, rfl⟩
  · exact ⟨_, rfl⟩
  · exact ⟨_, rfl⟩

theorem accumulate_serialize_aux (m : List ContentBlock) :
    ∀ done, accumulate (m.flatMap serializeBlock ++ [StreamEvent.messageStop]) ⟨done, none⟩
      = Except.ok (done ++ m) := by
  induction m with
  | nil => intro done; simp [accumulate]
  | cons b rest ih =>
    intro done
    cases b with
    | text s =>
      have h1 : accumulate
          ((ContentBlock.text s :: rest).flatMap serializeBlock
            ++ [StreamEvent.messageStop]) ⟨done, none⟩
          = accumulate (rest.flatMap serializeBlock ++ [StreamEvent.messageStop])
              ⟨done ++ [ContentBlock.text ("" ++ s)], none⟩ := rfl
      rw [h1, ih]
      simp
    | thinking s =>
      have h1 : accumulate
          ((ContentBlock.thinking s :: rest).flatMap serializeBlock
            ++ [StreamEvent.messageStop]) ⟨done, none⟩
          = accumulate (rest.flatMap serializeBlock ++ [StreamEvent.messageStop])
              ⟨done ++ [ContentBlock.thinking ("" ++ s)], none⟩ := rfl
      rw [h1, ih]
      simp
    | toolUse id name input =>
      have h1 : accumulate
          ((ContentBlock.toolUse id name input :: rest).flatMap serializeBlock
            ++ [StreamEvent.messageStop]) ⟨done, none⟩
          = accumulate (rest.flatMap serializeBlock ++ [StreamEvent.messageStop])
              ⟨done ++ [ContentBlock.toolUse id name ("" ++ input)], none⟩ := rfl
      rw [h1, ih]
      simp

/-- C1: a continuation Transport call happens iff the interpreted response
contains at least one tool_use block. With the next scripted response `m2`
tool_use-free, processing a response `m` performs `1` continuation call when
`m` contains a tool_use block and `0` otherwise; a tool_use-free response
(including an empty content sequence) completes the turn with the
conversation and the script untouched and no further call; a response with
tool_use blocks produces a trace whose single continuation call comes only
after all dispatch events of the response. -/
theorem continuation_call_iff_tool_use (tools : List ToolDef)
    (m m2 : List ContentBlock) (conv : List ChatMessage) (rest : Script)
    (h2 : hasAnyToolUse m2 = false) :
    (countCalls (innerLoop tools (Except.ok m2 :: rest) m conv).events
      = if hasAnyToolUse m then 1 else 0)
    ∧ (hasAnyToolUse m = false →
        innerLoop tools (Except.ok m2 :: rest) m conv
          = ⟨conv, [], Except.ok m2 :: rest, TurnEnd.completed⟩)
    ∧ (hasAnyToolUse m = true →
        (innerLoop tools (Except.ok m2 :: rest) m conv).events
          = (interpret tools m).events
            ++ [Event.appendToolResults (interpret tools m).results,
                Event.transportCall, Event.appendAssistant m2]) := by
  cases h : hasAnyToolUse m with
  | false =>
    rw [innerLoop_no_toolUse tools (Except.ok m2 :: rest) m conv h]
    exact ⟨by simp [countCalls], fun _ => rfl, fun ht => by simp at ht⟩
  | true =>
    rw [innerLoop_toolUse_ok tools rest m2 m conv h,
        innerLoop_no_toolUse tools rest m2
          (conv ++ [ChatMessage.toolResults (interpret tools m).results,
                    ChatMessage.assistant m2]) h2]
    refine ⟨?_, fun hf => by simp at hf, fun _ => by simp⟩
    simp only [List.append_nil, countCalls_append, countCalls_interpret]
    simp [countCalls, List.countP_cons, Event.isCall]

/-- Witness for C1 at a concrete input: one unregistered tool_use request and
a terminal text response. -/
theorem continuation_call_iff_tool_use_w :
    hasAnyToolUse [ContentBlock.text "done"] = false
    ∧ countCalls (innerLoop [] [Except.ok [ContentBlock.text "done"]]
        [ContentBlock.toolUse "id1" "list_files" "arg"] []).events
      = if hasAnyToolUse [ContentBlock.toolUse "id1" "list_files" "arg"] then 1 else 0 :=
  ⟨by decide,
   (continuation_call_iff_tool_use [] [ContentBlock.toolUse "id1" "list_files" "arg"]
      [ContentBlock.text "done"] [] [] (by decide)).1⟩

/-- C2: interpreting an assistant response with N tool_use blocks produces
exactly N tool_result blocks, positionally carrying the tool_use_id of their
corresponding requests, with executor dispatches in block order; and in the
loop all of them are collected into the single user-role tool-results message
appended before the continuation Transport call. -/
theorem tool_results_match_requests (tools : List ToolDef) (m : List ContentBlock)
    (script : Script) (conv : List ChatMessage)
    (h : hasAnyToolUse m = true) :
    (interpret tools m).results.length = m.countP ContentBlock.isToolUse
    ∧ (interpret tools m).results.map ToolResultBlock.tool_use_id = toolUseIds m
    ∧ (interpret tools m).events = m.filterMap (execEvent tools)
    ∧ (∃ tail,
        (innerLoop tools script m conv).events
          = (interpret tools m).events
            ++ Event.appendToolResults (interpret tools m).results
            :: Event.transportCall :: tail)
    ∧ (∃ convTail,
        (innerLoop tools script m conv).conv
          = conv ++ ChatMessage.toolResults (interpret tools m).results :: convTail) := by
  refine ⟨interpret_results_length tools m, interpret_results_ids tools m,
    interpret_events_shape tools m, ?_, ?_⟩
  · rcases script with _ | ⟨e | m2, rest⟩
    · rw [innerLoop_toolUse_nil tools m conv h]; exact ⟨[], by simp⟩
    · rw [innerLoop_toolUse_error tools rest e m conv h]
      exact ⟨[Event.errorShown e], by simp⟩
    · rw [innerLoop_toolUse_ok tools rest m2 m conv h]
      exact ⟨Event.appendAssistant m2
          :: (innerLoop tools rest m2
                (conv ++ [ChatMessage.toolResults (interpret tools m).results,
                          ChatMessage.assistant m2])).events, by simp⟩
  · rcases script with _ | ⟨e | m2, rest⟩
    · rw [innerLoop_toolUse_nil tools m conv h]; exact ⟨[], rfl⟩
    · rw [innerLoop_toolUse_error tools rest e m conv h]; exact ⟨[], rfl⟩
    · rw [innerLoop_toolUse_ok tools rest m2 m conv h]
      obtain ⟨ext, hext⟩ := innerLoop_conv_extend tools rest m2
        (conv ++ [ChatMessage.toolResults (interpret tools m).results,
                  ChatMessage.assistant m2])
      exact ⟨ChatMessage.assistant m2 :: ext, by simp [hext]⟩

/-- Witness for C2 at a concrete input: a response with two tool_use blocks,
one registered (returning a listing) and one unregistered. -/
theorem tool_results_match_requests_w :
    hasAnyToolUse [ContentBlock.toolUse "a1" "list_files" "arg",
        ContentBlock.text "and",
        ContentBlock.toolUse "a2" "delete_universe" "arg2"] = true
    ∧ (interpret [⟨"list_files", fun _ => Except.ok "a.txt"⟩]
          [ContentBlock.toolUse "a1" "list_files" "arg",
           ContentBlock.text "and",
           ContentBlock.toolUse "a2" "delete_universe" "arg2"]).results.map
        ToolResultBlock.tool_use_id
      = toolUseIds [ContentBlock.toolUse "a1" "list_files" "arg",
          ContentBlock.text "and",
          ContentBlock.toolUse "a2" "delete_universe" "arg2"] :=
  ⟨by decide,
   (tool_results_match_requests [⟨"list_files", fun _ => Except.ok "a.txt"⟩]
      [ContentBlock.toolUse "a1" "list_files" "arg",
       ContentBlock.text "and",
       ContentBlock.toolUse "a2" "delete_universe" "arg2"] [] [] (by decide)).2.1⟩

/-- C5: a tool_use block naming an unregistered tool dispatches no executor
and yields the synthesized tool_result whose payload is the message
"Tool not found: name" with the error flag set; the block still sets
hasToolUse, so the turn continues normally. -/
theorem unknown_tool_not_found_result (tools : List ToolDef) (id name : String)
    (input : ToolInput) (h : ∀ t ∈ tools, t.name ≠ name) :
    dispatchToolUse tools id name input
      = (⟨id, some ("Tool not found: " ++ name), true⟩, false)
    ∧ interpret tools [ContentBlock.toolUse id name input]
      = ⟨true, [⟨id, some ("Tool not found: " ++ name), true⟩], []⟩ := by
  have hf : findTool tools name = none := by
    apply List.find?_eq_none.mpr
    intro t ht
    simpa using h t ht
  constructor
  · simp [dispatchToolUse, hf]
  · simp [interpret, dispatchToolUse, hf]

/-- Witness for C5 at the spec's Scenario C input: the model requests
"delete_universe" against a registry holding only list_files. -/
theorem unknown_tool_not_found_result_w :
    (∀ t ∈ [(⟨"list_files", fun _ => Except.ok "a.txt"⟩ : ToolDef)],
        t.name ≠ "delete_universe")
    ∧ dispatchToolUse [⟨"list_files", fun _ => Except.ok "a.txt"⟩]
        "id9" "delete_universe" "arg"
      = (⟨"id9", some ("Tool not found: " ++ "delete_universe"), true⟩, false) :=
  ⟨by decide,
   (unknown_tool_not_found_result [⟨"list_files", fun _ => Except.ok "a.txt"⟩]
      "id9" "delete_universe" "arg" (by decide)).1⟩

/-- C6: an empty input line leaves the conversation untouched, contacts no
Transport (the only trace delta is the prompt read and the skip marker), and
the loop silently re-enters the prompt on the remaining inputs; a non-empty
input line appends exactly one user message with the raw text, and the very
next event after that append is the Transport call. -/
theorem submit_turn_appends (tools : List ToolDef) (s : String)
    (rest : List (Option String)) (script : Script) (conv : List ChatMessage)
    (h : s ≠ "") :
    (runChat tools (some "" :: rest) script conv
      = ⟨(runChat tools rest script conv).conv,
         Event.readInput (some "") :: Event.skipEmpty
           :: (runChat tools rest script conv).events,
         (runChat tools rest script conv).stop⟩)
    ∧ (∃ tail,
        (runChat tools (some s :: rest) script conv).events
          = Event.readInput (some s) :: Event.appendUserText s
            :: Event.transportCall :: tail) := by
  constructor
  · simp [runChat]
  · obtain ⟨tl, htl⟩ := runTurn_events_head tools script
      (conv ++ [ChatMessage.userText s])
    cases ht : (runTurn tools script (conv ++ [ChatMessage.userText s])).stop with
    | completed => exact ⟨tl ++ (runChat tools rest
        (runTurn tools script (conv ++ [ChatMessage.userText s])).leftover
        (runTurn tools script (conv ++ [ChatMessage.userText s])).conv).events,
        by simp [runChat, h, ht, htl]⟩
    | fatal e => exact ⟨tl, by simp [runChat, h, ht, htl]⟩
    | scriptEnded => exact ⟨tl, by simp [runChat, h, ht, htl]⟩

/-- Witness for C6 at a concrete input: the non-empty line "hi" and a script
answering with a plain text response. -/
theorem submit_turn_appends_w :
    "hi" ≠ ""
    ∧ ∃ tail,
        (runChat [] [some "hi"] [Except.ok [ContentBlock.text "ok"]] []).events
          = Event.readInput (some "hi") :: Event.appendUserText "hi"
            :: Event.transportCall :: tail :=
  ⟨by decide,
   (submit_turn_appends [] "hi" [] [Except.ok [ContentBlock.text "ok"]] []
      (by decide)).2⟩

/-- C3 counterexample: with the transport failing on the first call, the run
loop terminates — the second queued input line is never read (no readInput
event for it), so the loop does not return to AwaitingInput and does not
accept the next user input, contrary to the claim. The error is displayed and
no partial assistant message is appended, but processing ends with the fatal
return from run. -/
theorem transport_fault_halts_run_cex :
    runChat [] [some "hi", some "bye"] [Except.error "network down"] []
      = ⟨[ChatMessage.userText "hi"],
         [Event.readInput (some "hi"), Event.appendUserText "hi",
          Event.transportCall, Event.errorShown "network down"],
         RunEnd.fatal "network down"⟩
    ∧ Event.readInput (some "bye")
        ∉ (runChat [] [some "hi", some "bye"] [Except.error "network down"] []).events := by
  constructor
  · decide
  · decide

/-- C3 amended: a Transport failure is reported to the user-facing error
display and no partial assistant message is appended for the failed call
(a fault at a continuation call retains the already-appended tool-results
message but likewise appends no assistant message); however the loop then
terminates the whole run (the catch block returns from run) instead of
returning to AwaitingInput — remaining input is not read. -/
theorem transport_fault_fatal_to_run (tools : List ToolDef) (s : String)
    (rest : List (Option String)) (e : String) (restScript : Script)
    (conv : List ChatMessage) (h : s ≠ "") :
    runChat tools (some s :: rest) (Except.error e :: restScript) conv
      = ⟨conv ++ [ChatMessage.userText s],
         [Event.readInput (some s), Event.appendUserText s, Event.transportCall,
          Event.errorShown e],
         RunEnd.fatal e⟩
    ∧ ∀ (m : List ContentBlock) (conv2 : List ChatMessage),
        hasAnyToolUse m = true →
        innerLoop tools (Except.error e :: restScript) m conv2
          = ⟨conv2 ++ [ChatMessage.toolResults (interpret tools m).results],
             (interpret tools m).events
               ++ [Event.appendToolResults (interpret tools m).results,
                   Event.transportCall, Event.errorShown e],
             restScript, TurnEnd.fatal e⟩ := by
  constructor
  · simp [runChat, h, runTurn]
  · exact fun m conv2 hm => innerLoop_toolUse_error tools restScript e m conv2 hm

/-- Witness for the amended C3 at a concrete input. -/
theorem transport_fault_fatal_to_run_w :
    "hi" ≠ ""
    ∧ runChat [] (some "hi" :: [some "bye"]) (Except.error "auth" :: []) []
      = ⟨[] ++ [ChatMessage.userText "hi"],
         [Event.readInput (some "hi"), Event.appendUserText "hi",
          Event.transportCall, Event.errorShown "auth"],
         RunEnd.fatal "auth"⟩ :=
  ⟨by decide, (transport_fault_fatal_to_run [] "hi" [some "bye"] "auth" [] []
    (by decide)).1⟩

/-- C4: evaluation at the failing input. An executor of the 7-extended-thinking
variant that rejects with an empty message (for example `throw new Error()`)
yields a tool_result with `is_error: false` and `content: undefined` —
`is_error: !!toolErrorMsg` is string truthiness and the empty string is falsy
— contradicting the claim that the error flag is set with the failure message
as payload. The chapter4 variant, whose sentinel is the Error object itself,
flags the same failure correctly, showing the intent. Subsequent blocks of the
response are still processed unaffected and the response still triggers the
continuation (hasToolUse is true), so only the flag/payload part fails. -/
theorem executor_empty_message_failure_eval :
    dispatchToolUse [⟨"boom", fun _ => Except.error ""⟩] "id1" "boom" "arg"
      = (⟨"id1", none, false⟩, true)
    ∧ dispatchToolUseCh4 [⟨"boom", fun _ => Except.error ""⟩] "id1" "boom" "arg"
      = (⟨"id1", some "", true⟩, true)
    ∧ interpret [⟨"boom", fun _ => Except.error ""⟩, ⟨"t2", fun _ => Except.ok "ok"⟩]
        [ContentBlock.toolUse "id1" "boom" "arg", ContentBlock.toolUse "id2" "t2" "arg2"]
      = ⟨true, [⟨"id1", none, false⟩, ⟨"id2", some "ok", false⟩],
         [Event.execTool "boom", Event.execTool "t2"]⟩ := by
  refine ⟨?_, ?_, ?_⟩ <;> decide

/-- C7: for any logical model response, running the accumulator over the
response's event stream reconstructs exactly the same content-block sequence
the non-streaming path receives directly, and handing the reconstruction to
the interpretation logic yields the same dispatch results and the same
continuation decision — streaming changes neither the block structure nor the
dispatch behavior. -/
theorem streaming_reconstruction_identical (tools : List ToolDef)
    (m : List ContentBlock) :
    accumulate (serializeMessage m) ⟨[], none⟩ = Except.ok m
    ∧ (∀ m', accumulate (serializeMessage m) ⟨[], none⟩ = Except.ok m' →
        interpret tools m' = interpret tools m
        ∧ hasAnyToolUse m' = hasAnyToolUse m) := by
  have hacc : accumulate (serializeMessage m) ⟨[], none⟩ = Except.ok m := by
    have := accumulate_serialize_aux m []
    simpa [serializeMessage] using this
  refine ⟨hacc, fun m' hm' => ?_⟩
  rw [hacc] at hm'
  cases hm'
  exact ⟨rfl, rfl⟩

/-- Witness for C7 at a concrete input: a response holding a thinking block,
a text block and a tool_use block round-trips through the event stream. -/
theorem streaming_reconstruction_identical_w :
    accumulate (serializeMessage
        [ContentBlock.thinking "hm", ContentBlock.text "hi",
         ContentBlock.toolUse "id1" "list_files" "arg"]) ⟨[], none⟩
      = Except.ok [ContentBlock.thinking "hm", ContentBlock.text "hi",
          ContentBlock.toolUse "id1" "list_files" "arg"] :=
  (streaming_reconstruction_identical []
    [ContentBlock.thinking "hm", ContentBlock.text "hi",
     ContentBlock.toolUse "id1" "list_files" "arg"]).1

/-- C8 counterexample: protocol-violating event sequences are processed
silently, not treated as fatal. A text delta arriving when no block was ever
opened is still forwarded to the display, and a second thinking block-start
before any block-stop is simply processed again; the handler returns normal
display output in both cases and has no failure path at all. -/
theorem stream_violation_silently_ignored_cex :
    runHandler [HSEvent.contentBlockDelta (HSDelta.textDelta "x")] false
      = (false, [DisplayAction.claudeStream "x"])
    ∧ runHandler [HSEvent.contentBlockStart HSBlockType.thinking,
                  HSEvent.contentBlockStart HSBlockType.thinking] false
      = (true, [DisplayAction.thinkingStart, DisplayAction.thinkingStart]) := by
  constructor
  · decide
  · decide

/-- C8 amended: the repository's stream event handler performs no protocol
validation. It keeps only the isThinking display flag: a delta is forwarded
to the display regardless of whether any block is open, and a block-start is
processed regardless of whether a prior block is still open — malformed event
ordering is silently ignored by the handler, never surfaced as a fatal
condition (only a failure of the awaited final message, which is assembled
outside the repository by the SDK stream, reaches the catch block that
handles Transport faults). -/
theorem stream_handler_no_protocol_validation (s : String) (th : Bool) :
    handleStreamEvent th (HSEvent.contentBlockDelta (HSDelta.textDelta s))
      = (th, [DisplayAction.claudeStream s])
    ∧ handleStreamEvent th (HSEvent.contentBlockDelta (HSDelta.thinkingDelta s))
      = (th, [DisplayAction.thinkingStream s])
    ∧ handleStreamEvent th (HSEvent.contentBlockStart HSBlockType.thinking)
      = (true, [DisplayAction.thinkingStart]) := by
  exact ⟨rfl, rfl, rfl⟩

/-- C9 counterexample: a registered tool whose executor successfully returns
the empty string produces a tool_result whose error flag is unset and whose
payload is empty simultaneously — the very combination the claim says never
occurs, at the very input ("executor returns the empty string") the claim
covers. -/
theorem empty_success_payload_cex :
    (dispatchToolUse [⟨"echo", fun _ => Except.ok ""⟩] "id1" "echo" "arg").1
      = ⟨"id1", some "", false⟩
    ∧ (dispatchToolUse [⟨"echo", fun _ => Except.ok ""⟩] "id1" "echo" "arg").1.is_error
        = false
    ∧ (dispatchToolUse [⟨"echo", fun _ => Except.ok ""⟩] "id1" "echo" "arg").1.content
        = some "" := by
  refine ⟨?_, ?_, ?_⟩ <;> decide

/-- C9 amended: every successful execution of a registered tool maps to
exactly one tool_result whose error flag is unset and whose payload equals the
executor's returned text — including the empty string. (The original claim's
additional conjunct, that an unset flag never coincides with an empty payload,
is exactly what the empty-string return produces.) Both dispatch conventions
agree on the success path. -/
theorem success_single_nonerror_result (tools : List ToolDef) (t : ToolDef)
    (id name : String) (input : ToolInput) (r : String)
    (h1 : findTool tools name = some t) (h2 : t.exec input = Except.ok r) :
    dispatchToolUse tools id name input = (⟨id, some r, false⟩, true)
    ∧ (interpret tools [ContentBlock.toolUse id name input]).results
      = [⟨id, some r, false⟩]
    ∧ dispatchToolUseCh4 tools id name input = (⟨id, some r, false⟩, true) := by
  refine ⟨?_, ?_, ?_⟩ <;>
    simp [dispatchToolUse, dispatchToolUseCh4, interpret, h1, h2]

/-- Witness for the amended C9 at a concrete input: the executor returns the
empty string and the dispatch still yields the single non-error result. -/
theorem success_single_nonerror_result_w :
    findTool [(⟨"echo", fun _ => Except.ok ""⟩ : ToolDef)] "echo"
      = some (⟨"echo", fun _ => Except.ok ""⟩ : ToolDef)
    ∧ dispatchToolUse [(⟨"echo", fun _ => Except.ok ""⟩ : ToolDef)] "id1" "echo" "arg"
      = (⟨"id1", some "", false⟩, true) :=
  ⟨rfl,
   (success_single_nonerror_result [(⟨"echo", fun _ => Except.ok ""⟩ : ToolDef)]
      (⟨"echo", fun _ => Except.ok ""⟩ : ToolDef) "id1" "echo" "arg" "" rfl rfl).1⟩

/-- C10: the chapter3 list_files executor never rejects — whatever the
underlying readdir outcome, dispatching list_files yields a tool_result whose
error flag is false, and when the directory read failed the payload is the
ordinary string built as "Error listing files: message", still with the error
flag false. -/
theorem list_files_result_never_error (fs : ToolInput → Except String (List String))
    (id : String) (input : ToolInput) :
    dispatchToolUse [listFilesTool fs] id "list_files" input
      = (⟨id, some (ListFiles (fs input)), false⟩, true)
    ∧ (∀ m, fs input = Except.error m →
        ListFiles (fs input) = "Error listing files: " ++ m) := by
  constructor
  · simp [dispatchToolUse, findTool, listFilesTool, List.find?]
  · intro m hm
    simp [ListFiles, hm]

/-- Witness for C10 at a concrete input: the readdir of path "p" fails with
"ENOENT"; the payload carries the error text but the flag stays false. -/
theorem list_files_result_never_error_w :
    dispatchToolUse
        [listFilesTool (fun _ => (Except.error "ENOENT" : Except String (List String)))]
        "id1" "list_files" "p"
      = (⟨"id1",
          some (ListFiles ((fun _ => (Except.error "ENOENT" : Except String (List String))) "p")),
          false⟩, true)
    ∧ ListFiles ((fun _ => (Except.error "ENOENT" : Except String (List String))) "p")
      = "Error listing files: " ++ "ENOENT" :=
  ⟨(list_files_result_never_error (fun _ => Except.error "ENOENT") "id1" "p").1,
   (list_files_result_never_error (fun _ => Except.error "ENOENT") "id1" "p").2
     "ENOENT" rfl⟩

end Agent
